import Mathlib

/-!
Shallow embedding of the boost_asio_cpp_network_programming repository:
a minimal synchronous TCP transport layer (addresses, endpoints, name
resolution, connection, buffer sequences and a reliable transfer loop).

Source files embedded:
  src/chapter_01/recipe_01/main.cpp  (address parsing, endpoint construction)
  src/chapter_01/recipe_04/main.cpp  (numeric-service resolution query)
  src/chapter_01/recipe_06/main.cpp  (connect with scoped socket release)
  src/chapter_02/recipe_03/main.cpp  (manual write loop, composed write)
  src/chapter_06/recipe_01/main.cpp  (composite gather/scatter buffers)

Bytes are modelled as `Nat` (character codes), machine sizes as `Nat`.
The behaviour of a connected socket's underlying write primitive is
modelled as a finite trace of per-attempt steps: either the socket
accepts up to `cap` bytes of the requested range, or the primitive
fails with an OS error code (a thrown `boost::system::system_error`
in the source, collapsed to an explicit error value per spec section 9).
-/

namespace AsioNet

/-- Character codes of a string literal; models the bytes of a C++
`std::string` / `const char *` buffer. -/
def strBytes (s : String) : List Nat := s.toList.map Char.toNat

/-- One borrowed contiguous memory region with its contents
(`asio::const_buffer(ptr, len)` / `asio::mutable_buffer(ptr, len)` in
src/chapter_06/recipe_01/main.cpp). The length of the region is the
length of its byte list. -/
structure BufferSegment where
  bytes : List Nat
deriving DecidableEq

/-- Length of a segment, the second constructor argument of
`asio::const_buffer(part, n)`. -/
def BufferSegment.len (b : BufferSegment) : Nat := b.bytes.length

/-- Ordered sequence of segments
(`std::vector<asio::const_buffer> composite_buffer` in
src/chapter_06/recipe_01/main.cpp). -/
abbrev BufferSequence := List BufferSegment

/-- Building a composite buffer by `push_back` of segments in order
(steps 3 and 4 of `CompositeBuffersGatherOutput`). -/
def sequenceOf (segs : List BufferSegment) : BufferSequence := segs

/-- The logical concatenation of the segments: the composite buffer is
used "as if it was a simple buffer represented by contiguous block of
memory" (comment at src/chapter_06/recipe_01/main.cpp lines 19-21). -/
def flattenSeq (bs : BufferSequence) : List Nat :=
  bs.foldr (fun seg acc => seg.bytes ++ acc) []

/-- Total length of a buffer sequence: the length of its logical
concatenation. -/
def totalLength (bs : BufferSequence) : Nat := (flattenSeq bs).length

/-- The composite output buffer of `CompositeBuffersGatherOutput`:
`const_buffer("Hello ", 6)`, `const_buffer("my ", 3)`,
`const_buffer("friend!", 7)` pushed back in order
(src/chapter_06/recipe_01/main.cpp lines 7-17). -/
def compositeBufferGather : BufferSequence :=
  sequenceOf [⟨strBytes "Hello "⟩, ⟨strBytes "my "⟩, ⟨strBytes "friend!"⟩]

/-- The composite input buffer of `CompositeBuffersScatterInput`:
`char part1[6]`, `char part2[3]`, `char part3[7]` wrapped as mutable
buffers (src/chapter_06/recipe_01/main.cpp lines 27-40); contents are
uninitialised, modelled as zero bytes. -/
def compositeBufferScatter : BufferSequence :=
  sequenceOf [⟨List.replicate 6 0⟩, ⟨List.replicate 3 0⟩, ⟨List.replicate 7 0⟩]

/-- The bytes of the `std::string buf = "Hello"` written by both
`writeToSocket` and `writeToSocketEnhanced`
(src/chapter_02/recipe_03/main.cpp lines 9 and 26). -/
def helloBytes : List Nat := strBytes "Hello"

/-- One step of the behaviour of a connected socket's underlying write
primitive (`sock.write_some`): the socket either accepts up to `cap`
bytes of the requested range, or the primitive fails with an OS error
code (a thrown `system::system_error` in the source). -/
inductive SockStep where
  | accepts (cap : Nat)
  | fails (code : Nat)
deriving DecidableEq

/-- A finite trace of the socket's per-attempt behaviour. -/
abbrev SocketModel := List SockStep

/-- A step makes positive progress: it accepts at least one byte. -/
def makesProgressB : SockStep → Bool
  | .accepts c => 1 ≤ c
  | .fails _ => false

/-- How a run of the manual write loop of `writeToSocket`
(src/chapter_02/recipe_03/main.cpp lines 11-21) can end. -/
inductive WriteOutcome where
  | allWritten
  | ioError (code : Nat)
  | exhausted
deriving DecidableEq

/-- Result of a run of the manual write loop: accumulated
`total_bytes_written` plus how the run ended.  `exhausted` marks a run
whose socket trace ended while the loop still had data to write (the
real loop would keep waiting on the socket). -/
structure WriteRun where
  bytesWritten : Nat
  outcome : WriteOutcome
deriving DecidableEq

/-- The manual write loop of `writeToSocket`
(src/chapter_02/recipe_03/main.cpp lines 11-21):
`while (total_bytes_written != buf.length())
   total_bytes_written += sock.write_some(buffer(buf.c_str() +
     total_bytes_written, buf.length() - total_bytes_written));`
Each attempt requests the remaining tail of length `len - total`; a
step `accepts c` transfers `min c (len - total)` bytes (the primitive
never transfers more than requested); a step `fails code` models the
thrown `system_error` propagating out of the loop. -/
def writeToSocketAux : SocketModel → Nat → Nat → WriteRun
  | [], total, len =>
    if total = len then ⟨total, .allWritten⟩ else ⟨total, .exhausted⟩
  | step :: rest, total, len =>
    if total = len then ⟨total, .allWritten⟩
    else
      match step with
      | .accepts c => writeToSocketAux rest (total + min c (len - total)) len
      | .fails code => ⟨total, .ioError code⟩

/-- `writeToSocket` itself: runs the manual loop over the 5-byte buffer
`"Hello"` starting from `total_bytes_written = 0`. -/
def writeToSocketRun (sock : SocketModel) : WriteRun :=
  writeToSocketAux sock 0 helloBytes.length

/-- Error kinds of the transfer engine (spec sections 4.5 and 7). -/
inductive TransferError where
  | stalledTransfer
  | transferError (code : Nat)
deriving DecidableEq

/-- Outcome component of a `TransferResult` (spec section 3). -/
inductive TransferOutcome where
  | success
  | failure (e : TransferError)
deriving DecidableEq

/-- `TransferResult`: accumulated bytes plus outcome (spec section 3). -/
structure TransferResult where
  bytes_transferred : Nat
  outcome : TransferOutcome
deriving DecidableEq

/-- The transfer loop of `ReliableTransferEngine.writeAll`.  The loop
structure (exit condition, tail offset `total`, request length
`len - total`, accumulation) is translated from `writeToSocket`
(src/chapter_02/recipe_03/main.cpp lines 11-21).  Modelled from the
spec: the `StalledTransfer` check and the `TransferResult` shape
(sections 3, 4.5, 7), which have no implementation under src/ — the
recipe's loop relies on the blocking `write_some` never returning 0
without an error.  `none` marks a run whose finite socket trace ended
while the loop still had data to write. -/
def writeAllAux : SocketModel → Nat → Nat → Option TransferResult
  | [], total, len =>
    if total = len then some ⟨total, .success⟩ else none
  | step :: rest, total, len =>
    if total = len then some ⟨total, .success⟩
    else
      match step with
      | .accepts c =>
        if min c (len - total) = 0 then
          some ⟨total, .failure .stalledTransfer⟩
        else writeAllAux rest (total + min c (len - total)) len
      | .fails code => some ⟨total, .failure (.transferError code)⟩

/-- `writeAll(socket, data)`: run the transfer loop over the logical
concatenation of the buffer sequence, starting from 0 bytes written
(spec section 4.5). -/
def writeAll (sock : SocketModel) (data : BufferSequence) : Option TransferResult :=
  writeAllAux sock 0 (totalLength data)

/-- Instrumentation of the `writeAll` loop: the value of the
accumulated byte counter at each check of the loop condition, ending
with its final value.  Mirrors `writeAllAux` branch for branch. -/
def writeAllStates : SocketModel → Nat → Nat → List Nat
  | [], total, _len => [total]
  | step :: rest, total, len =>
    if total = len then [total]
    else
      match step with
      | .accepts c =>
        if min c (len - total) = 0 then [total, total]
        else total :: writeAllStates rest (total + min c (len - total)) len
      | .fails _ => [total, total]

/-- Instrumentation of the `writeAll` loop: the (offset, requested
length) pair passed to the underlying write primitive at each attempt,
exactly the arguments `buf.c_str() + total_bytes_written` and
`buf.length() - total_bytes_written` of the source loop.  Mirrors
`writeAllAux` branch for branch. -/
def writeAllAttempts : SocketModel → Nat → Nat → List (Nat × Nat)
  | [], _total, _len => []
  | step :: rest, total, len =>
    if total = len then []
    else
      match step with
      | .accepts c =>
        if min c (len - total) = 0 then [(total, len - total)]
        else (total, len - total) :: writeAllAttempts rest (total + min c (len - total)) len
      | .fails _ => [(total, len - total)]

/-- The bytes actually delivered to the socket by the manual loop of
`writeToSocket`, in order: each attempt at offset `total` delivers the
accepted chunk `(data.drop total).take (min c (len - total))`.  Mirrors
`writeToSocketAux` branch for branch. -/
def loopSent (data : List Nat) : SocketModel → Nat → List Nat
  | [], _total => []
  | step :: rest, total =>
    if total = data.length then []
    else
      match step with
      | .accepts c =>
        (data.drop total).take (min c (data.length - total))
          ++ loopSent data rest (total + min c (data.length - total))
      | .fails _ => []

/-- Bytes delivered by `writeToSocket` (buffer `"Hello"`, starting at
offset 0). -/
def writeToSocketSent (sock : SocketModel) : List Nat :=
  loopSent helloBytes sock 0

/-- Model of the library composed write `asio::write(sock, buffer)`
used by `writeToSocketEnhanced` (src/chapter_02/recipe_03/main.cpp
lines 24-30), per the Boost.Asio documentation: repeatedly call
`write_some` on the still-unwritten tail until nothing remains or an
attempt fails; returns the bytes delivered in order.  Tracks the
pending tail directly instead of an offset counter. -/
def asioWriteSentAux : SocketModel → List Nat → List Nat
  | [], _pending => []
  | step :: rest, pending =>
    if pending.length = 0 then []
    else
      match step with
      | .accepts c =>
        pending.take (min c pending.length)
          ++ asioWriteSentAux rest (pending.drop (min c pending.length))
      | .fails _ => []

/-- Bytes delivered by `writeToSocketEnhanced`: one call of the
composed write over the whole `"Hello"` buffer. -/
def writeToSocketEnhancedSent (sock : SocketModel) : List Nat :=
  asioWriteSentAux sock helloBytes

/-- IP-version-independent address value (`asio::ip::address`, a
tagged v4/v6 variant): four decimal octets for v4, eight 16-bit groups
for v6. -/
inductive Address where
  | v4 (a b c d : Nat)
  | v6 (groups : List Nat)
deriving DecidableEq

/-- Error produced by a failed address parse, carrying the input and a
reason (spec section 4.1); models the non-zero `error_code` filled in
by `asio::ip::address::from_string` at
src/chapter_01/recipe_01/main.cpp lines 19-29. -/
structure AddressParseError where
  input : String
  reason : String
deriving DecidableEq

/-- Split a character list on a separator character; `"a.b" ↦ [a, b]`,
keeping empty pieces. -/
def splitOnChar (sep : Char) : List Char → List (List Char)
  | [] => [[]]
  | c :: rest =>
    let r := splitOnChar sep rest
    if c = sep then [] :: r
    else
      match r with
      | [] => [[c]]
      | g :: gs => (c :: g) :: gs

/-- Value of a list of decimal digit characters. -/
def decDigitsVal (cs : List Char) : Nat :=
  cs.foldl (fun acc c => acc * 10 + (c.toNat - 48)) 0

/-- Parse one dotted-decimal octet: one to three decimal digits whose
value is at most 255 (the range check `inet_pton` performs). -/
def parseDecOctet (cs : List Char) : Option Nat :=
  if cs = [] then none
  else if 3 < cs.length then none
  else if cs.all Char.isDigit then
    if decDigitsVal cs ≤ 255 then some (decDigitsVal cs) else none
  else none

/-- Modelled from the spec: the dotted-decimal IPv4 acceptance of
`asio::ip::address::from_string` (spec section 4.1), whose parsing
logic lives in the Boost library, not under src/: exactly four
dot-separated decimal octets, each at most 255. -/
def parseV4 (s : String) : Option Address :=
  match splitOnChar '.' s.toList with
  | [p1, p2, p3, p4] =>
    (parseDecOctet p1).bind fun a =>
    (parseDecOctet p2).bind fun b =>
    (parseDecOctet p3).bind fun c =>
    (parseDecOctet p4).map fun d => Address.v4 a b c d
  | _ => none

/-- Hexadecimal digit test. -/
def isHexDigit (c : Char) : Bool :=
  c.isDigit || ('a' ≤ c && c ≤ 'f') || ('A' ≤ c && c ≤ 'F')

/-- Value of a hexadecimal digit character. -/
def hexVal (c : Char) : Nat :=
  if c.isDigit then c.toNat - 48
  else if 'a' ≤ c ∧ c ≤ 'f' then c.toNat - 87
  else if 'A' ≤ c ∧ c ≤ 'F' then c.toNat - 55
  else 0

/-- Value of a list of hexadecimal digit characters. -/
def hexDigitsVal (cs : List Char) : Nat :=
  cs.foldl (fun acc c => acc * 16 + hexVal c) 0

/-- Parse one colon-hex group: one to four hex digits.  A group of at
most four hex digits is below 2^16; the bound is checked explicitly so
that well-formedness of the parsed value is immediate. -/
def parseHexGroup (cs : List Char) : Option Nat :=
  if cs = [] then none
  else if 4 < cs.length then none
  else if cs.all isHexDigit then
    if hexDigitsVal cs ≤ 65535 then some (hexDigitsVal cs) else none
  else none

/-- Modelled from the spec: the colon-hex IPv6 acceptance of
`asio::ip::address::from_string` (spec section 4.1), whose parsing
logic lives in the Boost library, not under src/.  Only the full
eight-group form is modelled; the `::` compression and embedded-v4
forms are omitted (no claim depends on them). -/
def parseV6 (s : String) : Option Address :=
  match splitOnChar ':' s.toList with
  | [g1, g2, g3, g4, g5, g6, g7, g8] =>
    (parseHexGroup g1).bind fun a =>
    (parseHexGroup g2).bind fun b =>
    (parseHexGroup g3).bind fun c =>
    (parseHexGroup g4).bind fun d =>
    (parseHexGroup g5).bind fun e =>
    (parseHexGroup g6).bind fun f =>
    (parseHexGroup g7).bind fun g =>
    (parseHexGroup g8).map fun h => Address.v6 [a, b, c, d, e, f, g, h]
  | _ => none

/-- `parseAddress(text)`: version-independent parse, dotted-decimal v4
or colon-hex v6, failing with an `AddressParseError` on any
non-conforming input (spec section 4.1; the source's
`from_string(raw_ip_address, ec)` call at
src/chapter_01/recipe_01/main.cpp lines 19-20). -/
def parseAddress (s : String) : Except AddressParseError Address :=
  match parseV4 s with
  | some a => Except.ok a
  | none =>
    match parseV6 s with
    | some a => Except.ok a
    | none => Except.error ⟨s, "malformed address"⟩

/-- A fully valid address value: v4 octets fit in a byte, v6 has
exactly eight groups each fitting in 16 bits.  A parsed address must
never be observable outside this set (spec section 3). -/
def Address.wellFormed : Address → Prop
  | .v4 a b c d => a < 256 ∧ b < 256 ∧ c < 256 ∧ d < 256
  | .v6 gs => gs.length = 8 ∧ ∀ g ∈ gs, g < 65536

/-- `(Address, port)` pair (`asio::ip::tcp::endpoint ep(ip_address,
port_num)` at src/chapter_01/recipe_01/main.cpp line 32). -/
structure Endpoint where
  addr : Address
  port : Nat
deriving DecidableEq

/-- `makeEndpoint(address, port)`: total constructor of an endpoint
(spec section 4.1). -/
def makeEndpoint (a : Address) (p : Nat) : Endpoint := ⟨a, p⟩

/-- Resolution query: host, service and the `numeric_service` flag
(`asio::ip::tcp::resolver::query resolver_query(host, port_num,
query::numeric_service)` at src/chapter_01/recipe_04/main.cpp
lines 18-19). -/
structure ResolveQuery where
  host : String
  service : String
  numericService : Bool
deriving DecidableEq

/-- `ResolutionError{code, message}` (spec sections 4.2 and 7). -/
structure ResolutionError where
  code : Nat
  message : String
deriving DecidableEq

/-- Ordered candidate endpoints produced by resolution (spec
section 3). -/
abbrev ResolvedSet := List Endpoint

/-- Strict numeric interpretation of a service string: all decimal
digits, nonempty, value at most 65535. -/
def numericServiceVal (s : String) : Option Nat :=
  let cs := s.toList
  if (!cs.isEmpty) && cs.all Char.isDigit then
    if decDigitsVal cs ≤ 65535 then some (decDigitsVal cs) else none
  else none

/-- Modelled from the spec: `resolve(query)` (spec section 4.2).  The
OS name-resolution primitive behind `resolver.resolve(query, ec)`
(src/chapter_01/recipe_04/main.cpp lines 29-30) is not under src/; it
is represented by an abstract host table mapping a host name to its
addresses.  In `numeric_service` mode the service string must be a
numeric port; only that mode, the one the recipe demonstrates, is
modelled (spec section 9). -/
def resolve (table : String → Option (List Address)) (q : ResolveQuery) :
    Except ResolutionError ResolvedSet :=
  if q.numericService then
    match numericServiceVal q.service with
    | none => Except.error ⟨1, "non-numeric service in numeric-service mode"⟩
    | some p =>
      match table q.host with
      | none => Except.error ⟨2, "host not found"⟩
      | some addrs => Except.ok (addrs.map (fun a => makeEndpoint a p))
  else Except.error ⟨3, "symbolic service lookup not modelled"⟩

/-- `ConnectionError{code, message}` (spec sections 4.3 and 7). -/
structure ConnectionError where
  code : Nat
  message : String
deriving DecidableEq

/-- Behaviour of the peer for one connection attempt: it either
accepts, or the OS reports a failure code (refused, unreachable). -/
inductive PeerBehavior where
  | accepts
  | refuses (code : Nat)
deriving DecidableEq

/-- State of a socket resource (spec section 3). -/
inductive SocketState where
  | openUnconnected
  | connected
  | closed
deriving DecidableEq

/-- Count of live OS socket handles, the observable for resource-leak
freedom. -/
structure OsState where
  openHandles : Nat
deriving DecidableEq

/-- Modelled from the spec: `connect(endpoint)` (spec section 4.3).
The recipe (src/chapter_01/recipe_06/main.cpp lines 14-43) opens a
socket scoped to the endpoint's protocol and connects inside a try
block; the release of the partially-opened socket on the failure path
is performed by C++ scope exit (the socket's destructor), which has no
textual statement under src/.  The model opens one handle, then either
connects or fails releasing the handle before returning. -/
def connect (_ep : Endpoint) (env : PeerBehavior) (st : OsState) :
    (Except ConnectionError SocketState) × OsState :=
  let opened : OsState := ⟨st.openHandles + 1⟩
  match env with
  | .accepts => (Except.ok SocketState.connected, opened)
  | .refuses code =>
    (Except.error ⟨code, "connection failed"⟩, ⟨opened.openHandles - 1⟩)

/-- A trace every step of which accepts at least one byte drives the
`writeAll` loop to completion, provided the trace is at least as long
as the number of missing bytes. -/
theorem writeAllAux_progress_complete (sock : SocketModel) :
    ∀ total len, total ≤ len →
      (∀ s ∈ sock, makesProgressB s = true) →
      len - total ≤ sock.length →
      writeAllAux sock total len = some ⟨len, TransferOutcome.success⟩ := by
  induction sock with
  | nil =>
    intro total len h1 _ h3
    have h : total = len := by simp at h3; omega
    subst h
    simp [writeAllAux]
  | cons step rest ih =>
    intro total len h1 hall h3
    by_cases heq : total = len
    · subst heq; simp [writeAllAux]
    · have hstep := hall step (List.mem_cons_self _ _)
      cases step with
      | fails code => simp [makesProgressB] at hstep
      | accepts c =>
        have hc : 1 ≤ c := by simpa [makesProgressB] using hstep
        have hlt : total < len := lt_of_le_of_ne h1 heq
        have hmin : 1 ≤ min c (len - total) := Nat.le_min.mpr ⟨hc, by omega⟩
        simp only [writeAllAux, if_neg heq]
        rw [if_neg (by omega)]
        exact ih _ _ (by omega) (fun s hs => hall s (List.mem_cons_of_mem _ hs))
          (by simp at h3 ⊢; omega)

/-- Claim C4: for every buffer sequence built by `sequenceOf` from an
ordered list of segments, total length equals the sum of segment
lengths; the empty sequence is legal with total length 0; the gather
and scatter composite buffers of the source have segment lengths
6, 3, 7 and total length 16. -/
theorem sequenceOf_total_length :
    (∀ segs : List BufferSegment,
        totalLength (sequenceOf segs) = (segs.map BufferSegment.len).sum)
    ∧ totalLength (sequenceOf []) = 0
    ∧ compositeBufferGather.map BufferSegment.len = [6, 3, 7]
    ∧ totalLength compositeBufferGather = 16
    ∧ compositeBufferScatter.map BufferSegment.len = [6, 3, 7]
    ∧ totalLength compositeBufferScatter = 16 := by
  refine ⟨?_, by decide, by decide, by decide, by decide, by decide⟩
  intro segs
  induction segs with
  | nil => rfl
  | cons s rest ih =>
    simp only [totalLength, sequenceOf, flattenSeq, List.foldr_cons,
      List.length_append, List.map_cons, List.sum_cons, BufferSegment.len] at ih ⊢
    omega

/-- Claim C1: whenever every underlying write attempt transfers at
least one byte without error, `writeAll` over the {6,3,7} composite
buffer (total 16 bytes) completes reporting 16 bytes and success; in
particular for the socket accepting 2, then 1, then the remaining 13
bytes. -/
theorem writeAll_gather_completes :
    (∀ sock : SocketModel,
        (∀ s ∈ sock, makesProgressB s = true) →
        16 ≤ sock.length →
        writeAll sock compositeBufferGather = some ⟨16, TransferOutcome.success⟩)
    ∧ writeAll [SockStep.accepts 2, SockStep.accepts 1, SockStep.accepts 13]
        compositeBufferGather = some ⟨16, TransferOutcome.success⟩ := by
  constructor
  · intro sock hall hlen
    have h16 : totalLength compositeBufferGather = 16 := by decide
    unfold writeAll
    rw [h16]
    exact writeAllAux_progress_complete sock 0 16 (by omega) hall (by omega)
  · decide

theorem writeAll_gather_completes_witness :
    (∀ s ∈ List.replicate 16 (SockStep.accepts 1), makesProgressB s = true)
    ∧ writeAll (List.replicate 16 (SockStep.accepts 1)) compositeBufferGather
        = some ⟨16, TransferOutcome.success⟩ :=
  ⟨by decide, writeAll_gather_completes.1 _ (by decide) (by decide)⟩

/-- Claim C2: a `writeAll` whose underlying primitive accepts 0 bytes
with no error on the first attempt terminates immediately with
`StalledTransfer`, whatever the rest of the socket behaviour is. -/
theorem writeAll_zero_progress_stalls :
    ∀ (rest : SocketModel) (data : BufferSequence),
      0 < totalLength data →
      writeAll (SockStep.accepts 0 :: rest) data
        = some ⟨0, TransferOutcome.failure TransferError.stalledTransfer⟩ := by
  intro rest data h
  have hne : ¬((0 : Nat) = totalLength data) := by omega
  simp [writeAll, writeAllAux, hne]

theorem writeAll_zero_progress_stalls_witness :
    0 < totalLength compositeBufferGather
    ∧ writeAll [SockStep.accepts 0] compositeBufferGather
        = some ⟨0, TransferOutcome.failure TransferError.stalledTransfer⟩ :=
  ⟨by decide, writeAll_zero_progress_stalls [] compositeBufferGather (by decide)⟩

/-- Claim C9: with a buffer of total length zero the loop condition
fails on entry: `writeAll` issues no underlying write attempt and
returns immediately with zero bytes written, and the manual loop of
`writeToSocket` likewise exits at once. -/
theorem writeAll_zero_length_no_attempt :
    ∀ (sock : SocketModel) (data : BufferSequence),
      totalLength data = 0 →
      writeAll sock data = some ⟨0, TransferOutcome.success⟩
      ∧ writeAllAttempts sock 0 (totalLength data) = []
      ∧ writeToSocketAux sock 0 0 = ⟨0, WriteOutcome.allWritten⟩ := by
  intro sock data h
  rw [writeAll, h]
  cases sock <;> simp [writeAllAux, writeAllAttempts, writeToSocketAux, h]

theorem writeAll_zero_length_no_attempt_witness :
    writeAll [SockStep.accepts 3] (sequenceOf []) = some ⟨0, TransferOutcome.success⟩
    ∧ writeAllAttempts [SockStep.accepts 3] 0 (totalLength (sequenceOf [])) = []
    ∧ writeToSocketAux [SockStep.accepts 3] 0 0 = ⟨0, WriteOutcome.allWritten⟩ :=
  writeAll_zero_length_no_attempt [SockStep.accepts 3] (sequenceOf []) (by decide)

/-- The state trace of a `writeAll` run is never empty. -/
theorem writeAllStates_ne_nil (sock : SocketModel) (total len : Nat) :
    writeAllStates sock total len ≠ [] := by
  cases sock with
  | nil => simp [writeAllStates]
  | cons step rest =>
    by_cases heq : total = len
    · simp [writeAllStates, heq]
    · cases step with
      | accepts c =>
        by_cases h0 : min c (len - total) = 0
        · simp [writeAllStates, heq, h0]
        · simp [writeAllStates, heq, h0]
      | fails code => simp [writeAllStates, heq]

/-- The state trace of a `writeAll` run starts at the initial byte
counter. -/
theorem writeAllStates_head (sock : SocketModel) (total len : Nat) :
    (writeAllStates sock total len).head? = some total := by
  cases sock with
  | nil => simp [writeAllStates]
  | cons step rest =>
    by_cases heq : total = len
    · simp [writeAllStates, heq]
    · cases step with
      | accepts c =>
        by_cases h0 : min c (len - total) = 0
        · simp [writeAllStates, heq, h0]
        · simp [writeAllStates, heq, h0]
      | fails code => simp [writeAllStates, heq]

/-- The byte counter of a `writeAll` run never decreases. -/
theorem writeAllStates_chain (sock : SocketModel) :
    ∀ total len, (writeAllStates sock total len).Chain' (· ≤ ·) := by
  induction sock with
  | nil => intro total len; simp [writeAllStates]
  | cons step rest ih =>
    intro total len
    by_cases heq : total = len
    · simp [writeAllStates, heq]
    · cases step with
      | fails code => simp [writeAllStates, heq]
      | accepts c =>
        by_cases h0 : min c (len - total) = 0
        · simp [writeAllStates, heq, h0]
        · simp only [writeAllStates, if_neg heq, if_neg h0]
          rw [List.chain'_cons']
          refine ⟨fun y hy => ?_, ih _ _⟩
          rw [writeAllStates_head] at hy
          simp only [Option.mem_some_iff] at hy
          omega

/-- Every write attempt of a `writeAll` run is issued at the current
byte counter for exactly the remaining length. -/
theorem writeAllAttempts_eq (sock : SocketModel) :
    ∀ total len,
      writeAllAttempts sock total len
        = (writeAllStates sock total len).dropLast.map (fun t => (t, len - t)) := by
  induction sock with
  | nil => intro total len; simp [writeAllAttempts, writeAllStates]
  | cons step rest ih =>
    intro total len
    by_cases heq : total = len
    · simp [writeAllAttempts, writeAllStates, heq]
    · cases step with
      | fails code => simp [writeAllAttempts, writeAllStates, heq]
      | accepts c =>
        by_cases h0 : min c (len - total) = 0
        · simp [writeAllAttempts, writeAllStates, heq, h0]
        · have hne := writeAllStates_ne_nil rest (total + min c (len - total)) len
          obtain ⟨y, ys, hys⟩ := List.exists_cons_of_ne_nil hne
          simp only [writeAllAttempts, writeAllStates, if_neg heq, if_neg h0]
          rw [ih, hys]
          simp [List.dropLast]

/-- A finished `writeAll` run reports success exactly when its byte
counter reached the requested length. -/
theorem writeAllAux_success_iff (sock : SocketModel) :
    ∀ total len r, writeAllAux sock total len = some r →
      (r.outcome = TransferOutcome.success ↔ r.bytes_transferred = len) := by
  induction sock with
  | nil =>
    intro total len r h
    by_cases heq : total = len
    · subst heq; simp [writeAllAux] at h; subst h; simp
    · simp [writeAllAux, heq] at h
  | cons step rest ih =>
    intro total len r h
    by_cases heq : total = len
    · subst heq; simp [writeAllAux] at h; subst h; simp
    · cases step with
      | fails code =>
        simp [writeAllAux, heq] at h
        subst h
        simp [heq]
      | accepts c =>
        by_cases h0 : min c (len - total) = 0
        · simp [writeAllAux, heq, h0] at h
          subst h
          simp [heq]
        · simp only [writeAllAux, if_neg heq, if_neg h0] at h
          exact ih _ _ _ h

/-- Claim C3: throughout every `writeAll` call the accumulated byte
counter is monotonically non-decreasing, every underlying write
attempt targets exactly the remaining unwritten tail (offset equal to
the byte counter, requested length equal to total minus the counter),
and the run reports success exactly when the counter equals the total
length of the buffer sequence. -/
theorem writeAll_loop_invariants :
    ∀ (sock : SocketModel) (data : BufferSequence),
      (writeAllStates sock 0 (totalLength data)).Chain' (· ≤ ·)
      ∧ writeAllAttempts sock 0 (totalLength data)
          = (writeAllStates sock 0 (totalLength data)).dropLast.map
              (fun t => (t, totalLength data - t))
      ∧ ∀ r, writeAll sock data = some r →
          (r.outcome = TransferOutcome.success
            ↔ r.bytes_transferred = totalLength data) :=
  fun sock data =>
    ⟨writeAllStates_chain sock 0 (totalLength data),
      writeAllAttempts_eq sock 0 (totalLength data),
      fun r h => writeAllAux_success_iff sock 0 (totalLength data) r h⟩

theorem writeAll_loop_invariants_witness :
    (TransferResult.mk 16 TransferOutcome.success).outcome = TransferOutcome.success
      ↔ (TransferResult.mk 16 TransferOutcome.success).bytes_transferred
          = totalLength compositeBufferGather :=
  (writeAll_loop_invariants [SockStep.accepts 16] compositeBufferGather).2.2
    ⟨16, TransferOutcome.success⟩ (by decide)

/-- The manual write loop delivers exactly the tail of the buffer it
was started at, whenever every attempt makes positive progress and the
trace is long enough. -/
theorem loopSent_all (sock : SocketModel) :
    ∀ (data : List Nat) (total : Nat), total ≤ data.length →
      (∀ s ∈ sock, makesProgressB s = true) →
      data.length - total ≤ sock.length →
      loopSent data sock total = data.drop total := by
  induction sock with
  | nil =>
    intro data total h1 _ h3
    have h : total = data.length := by simp at h3; omega
    simp [loopSent, h, List.drop_length]
  | cons step rest ih =>
    intro data total h1 hall h3
    by_cases heq : total = data.length
    · simp [loopSent, heq, List.drop_length]
    · have hstep := hall step (List.mem_cons_self _ _)
      cases step with
      | fails code => simp [makesProgressB] at hstep
      | accepts c =>
        have hc : 1 ≤ c := by simpa [makesProgressB] using hstep
        have hlt : total < data.length := lt_of_le_of_ne h1 heq
        have hmin : 1 ≤ min c (data.length - total) := Nat.le_min.mpr ⟨hc, by omega⟩
        simp only [loopSent, if_neg heq]
        rw [ih data (total + min c (data.length - total)) (by omega)
          (fun s hs => hall s (List.mem_cons_of_mem _ hs)) (by simp at h3 ⊢; omega)]
        have hdd : List.drop (total + min c (data.length - total)) data
            = List.drop (min c (data.length - total)) (List.drop total data) := by
          rw [List.drop_drop]
        rw [hdd]
        exact List.take_append_drop _ _

/-- The composed write delivers exactly its pending buffer, whenever
every attempt makes positive progress and the trace is long enough. -/
theorem asioWriteSent_all (sock : SocketModel) :
    ∀ pending : List Nat,
      (∀ s ∈ sock, makesProgressB s = true) →
      pending.length ≤ sock.length →
      asioWriteSentAux sock pending = pending := by
  induction sock with
  | nil =>
    intro pending _ h
    have hp : pending = [] := List.length_eq_zero.mp (by simpa using h)
    subst hp; rfl
  | cons step rest ih =>
    intro pending hall hlen
    by_cases h0 : pending.length = 0
    · have hp : pending = [] := List.length_eq_zero.mp h0
      subst hp; simp [asioWriteSentAux]
    · have hstep := hall step (List.mem_cons_self _ _)
      cases step with
      | fails code => simp [makesProgressB] at hstep
      | accepts c =>
        have hc : 1 ≤ c := by simpa [makesProgressB] using hstep
        have hmin : 1 ≤ min c pending.length := Nat.le_min.mpr ⟨hc, by omega⟩
        simp only [asioWriteSentAux, if_neg h0]
        rw [ih _ (fun s hs => hall s (List.mem_cons_of_mem _ hs))
          (by simp at hlen ⊢; omega)]
        exact List.take_append_drop _ _

/-- Claim C10: against any socket whose underlying write primitive
makes positive progress without error on every attempt, the manual
partial-write loop of `writeToSocket` and the composed write of
`writeToSocketEnhanced` deliver exactly the same byte sequence to the
socket, namely the 5 bytes of `"Hello"`, in order. -/
theorem manual_loop_matches_composed :
    ∀ sock : SocketModel,
      (∀ s ∈ sock, makesProgressB s = true) →
      5 ≤ sock.length →
      writeToSocketSent sock = writeToSocketEnhancedSent sock
      ∧ writeToSocketSent sock = helloBytes := by
  intro sock hall hlen
  have h5 : helloBytes.length = 5 := by decide
  have hA : loopSent helloBytes sock 0 = helloBytes.drop 0 :=
    loopSent_all sock helloBytes 0 (by omega) hall (by omega)
  have hB : asioWriteSentAux sock helloBytes = helloBytes :=
    asioWriteSent_all sock helloBytes hall (by omega)
  rw [List.drop_zero] at hA
  exact ⟨by rw [writeToSocketSent, writeToSocketEnhancedSent, hA, hB],
    by rw [writeToSocketSent, hA]⟩

/-- A successfully parsed dotted-decimal octet fits in a byte. -/
theorem parseDecOctet_bound {cs : List Char} {v : Nat}
    (h : parseDecOctet cs = some v) : v < 256 := by
  unfold parseDecOctet at h
  split at h
  · simp at h
  · split at h
    · simp at h
    · split at h
      · split at h
        · rename_i hle
          simp only [Option.some.injEq] at h
          omega
        · simp at h
      · simp at h

/-- A successfully parsed colon-hex group fits in 16 bits. -/
theorem parseHexGroup_bound {cs : List Char} {v : Nat}
    (h : parseHexGroup cs = some v) : v < 65536 := by
  unfold parseHexGroup at h
  split at h
  · simp at h
  · split at h
    · simp at h
    · split at h
      · split at h
        · rename_i hle
          simp only [Option.some.injEq] at h
          omega
        · simp at h
      · simp at h

/-- Every address produced by the v4 parser is well formed. -/
theorem parseV4_wellFormed {s : String} {a : Address} (h : parseV4 s = some a) :
    Address.wellFormed a := by
  unfold parseV4 at h
  split at h
  · simp only [Option.bind_eq_some, Option.map_eq_some'] at h
    obtain ⟨x1, h1, x2, h2, x3, h3, x4, h4, rfl⟩ := h
    exact ⟨parseDecOctet_bound h1, parseDecOctet_bound h2,
      parseDecOctet_bound h3, parseDecOctet_bound h4⟩
  · simp at h

/-- Every address produced by the v6 parser is well formed. -/
theorem parseV6_wellFormed {s : String} {a : Address} (h : parseV6 s = some a) :
    Address.wellFormed a := by
  unfold parseV6 at h
  split at h
  · simp only [Option.bind_eq_some, Option.map_eq_some'] at h
    obtain ⟨x1, h1, x2, h2, x3, h3, x4, h4, x5, h5, x6, h6, x7, h7, x8, h8, rfl⟩ := h
    refine ⟨rfl, ?_⟩
    intro g hg
    simp only [List.mem_cons, List.not_mem_nil, or_false] at hg
    rcases hg with rfl | rfl | rfl | rfl | rfl | rfl | rfl | rfl
    · exact parseHexGroup_bound h1
    · exact parseHexGroup_bound h2
    · exact parseHexGroup_bound h3
    · exact parseHexGroup_bound h4
    · exact parseHexGroup_bound h5
    · exact parseHexGroup_bound h6
    · exact parseHexGroup_bound h7
    · exact parseHexGroup_bound h8
  · simp at h

/-- Every address value `parseAddress` ever returns is fully valid:
no half-parsed value is observable. -/
theorem parseAddress_ok_wellFormed :
    ∀ (s : String) (a : Address), parseAddress s = Except.ok a →
      Address.wellFormed a := by
  intro s a h
  unfold parseAddress at h
  cases hv4 : parseV4 s with
  | some a1 =>
    rw [hv4] at h
    simp only [Except.ok.injEq] at h
    subst h
    exact parseV4_wellFormed hv4
  | none =>
    rw [hv4] at h
    cases hv6 : parseV6 s with
    | some a1 =>
      rw [hv6] at h
      simp only [Except.ok.injEq] at h
      subst h
      exact parseV6_wellFormed hv6
    | none =>
      rw [hv6] at h
      simp at h

/-- Claim C5: the endpoint `127.0.0.1:3333` built by parsing the
address text and pairing it with port 3333 equals `makeEndpoint`
applied to the parsed address and 3333, and two endpoints are equal
iff their address and port components are equal. -/
theorem endpoint_construction_consistent :
    (∃ a : Address, parseAddress "127.0.0.1" = Except.ok a
        ∧ Endpoint.mk a 3333 = makeEndpoint a 3333)
    ∧ ∀ e1 e2 : Endpoint, e1 = e2 ↔ (e1.addr = e2.addr ∧ e1.port = e2.port) := by
  constructor
  · exact ⟨Address.v4 127 0 0 1, rfl, rfl⟩
  · intro e1 e2
    constructor
    · rintro rfl
      exact ⟨rfl, rfl⟩
    · rintro ⟨h1, h2⟩
      cases e1
      cases e2
      cases h1
      cases h2
      rfl

theorem endpoint_construction_consistent_witness :
    makeEndpoint (Address.v4 127 0 0 1) 3333 = makeEndpoint (Address.v4 127 0 0 1) 3333 :=
  (endpoint_construction_consistent.2 (makeEndpoint (Address.v4 127 0 0 1) 3333)
    (makeEndpoint (Address.v4 127 0 0 1) 3333)).mpr ⟨rfl, rfl⟩

/-- Claim C6: malformed textual addresses such as `"600.1.1.1"` and
`"not-an-ip"` make `parseAddress` return an `AddressParseError` and no
address value, and any address it does return is fully valid — never
half-parsed. -/
theorem parseAddress_rejects_malformed :
    (∃ err, parseAddress "600.1.1.1" = Except.error err)
    ∧ (∃ err, parseAddress "not-an-ip" = Except.error err)
    ∧ ∀ (s : String) (a : Address), parseAddress s = Except.ok a →
        Address.wellFormed a :=
  ⟨⟨⟨"600.1.1.1", "malformed address"⟩, rfl⟩,
    ⟨⟨"not-an-ip", "malformed address"⟩, rfl⟩,
    parseAddress_ok_wellFormed⟩

theorem parseAddress_rejects_malformed_witness :
    Address.wellFormed (Address.v4 127 0 0 1) :=
  parseAddress_rejects_malformed.2.2 "127.0.0.1" (Address.v4 127 0 0 1) rfl

/-- Claim C7: in numeric-service mode the service string is read
strictly as a numeric port: resolving `{localhost, "8080"}` succeeds
with at least one endpoint carrying port 8080, resolving
`{localhost, "http"}` fails with a `ResolutionError`, and every
endpoint of any successful numeric-mode resolution carries the parsed
numeric port. -/
theorem resolve_numeric_service_mode :
    ∀ (table : String → Option (List Address)) (addrs : List Address),
      table "localhost" = some addrs → addrs ≠ [] →
      (∃ eps, resolve table ⟨"localhost", "8080", true⟩ = Except.ok eps
          ∧ ∃ e ∈ eps, e.port = 8080)
      ∧ resolve table ⟨"localhost", "http", true⟩
          = Except.error ⟨1, "non-numeric service in numeric-service mode"⟩
      ∧ ∀ (q : ResolveQuery) (eps : ResolvedSet),
          q.numericService = true → resolve table q = Except.ok eps →
          ∃ p, numericServiceVal q.service = some p ∧ ∀ e ∈ eps, e.port = p := by
  intro table addrs htab hne
  have h8 : numericServiceVal "8080" = some 8080 := rfl
  have hh : numericServiceVal "http" = none := rfl
  refine ⟨?_, ?_, ?_⟩
  · refine ⟨addrs.map (fun a => makeEndpoint a 8080), ?_, ?_⟩
    · simp [resolve, h8, htab]
    · obtain ⟨a0, rest, rfl⟩ := List.exists_cons_of_ne_nil hne
      exact ⟨makeEndpoint a0 8080, by simp, rfl⟩
  · simp [resolve, hh]
  · intro q eps hq hres
    unfold resolve at hres
    simp only [hq, if_true] at hres
    cases hsv : numericServiceVal q.service with
    | none => rw [hsv] at hres; simp at hres
    | some p =>
      rw [hsv] at hres
      cases htq : table q.host with
      | none => rw [htq] at hres; simp at hres
      | some as =>
        rw [htq] at hres
        simp only [Except.ok.injEq] at hres
        subst hres
        refine ⟨p, rfl, ?_⟩
        intro e he
        simp only [List.mem_map] at he
        obtain ⟨a, _, rfl⟩ := he
        rfl

theorem resolve_numeric_service_mode_witness :
    ∃ eps, resolve
        (fun h => if h = "localhost" then some [Address.v4 127 0 0 1] else none)
        ⟨"localhost", "8080", true⟩ = Except.ok eps
      ∧ ∃ e ∈ eps, e.port = 8080 :=
  (resolve_numeric_service_mode
    (fun h => if h = "localhost" then some [Address.v4 127 0 0 1] else none)
    [Address.v4 127 0 0 1] rfl (List.cons_ne_nil _ _)).1

/-- Claim C8: a failed connection attempt returns a `ConnectionError`
carrying the OS code and leaves the count of open socket handles
unchanged — the partially-opened socket is released before the call
returns. -/
theorem connect_failure_releases_socket :
    ∀ (ep : Endpoint) (code : Nat) (st : OsState),
      (connect ep (PeerBehavior.refuses code) st).1
          = Except.error ⟨code, "connection failed"⟩
      ∧ (connect ep (PeerBehavior.refuses code) st).2.openHandles = st.openHandles := by
  intro ep code st
  exact ⟨rfl, by simp [connect]⟩

theorem manual_loop_matches_composed_witness :
    writeToSocketSent [SockStep.accepts 2, SockStep.accepts 1, SockStep.accepts 1,
        SockStep.accepts 5, SockStep.accepts 5]
      = writeToSocketEnhancedSent [SockStep.accepts 2, SockStep.accepts 1,
          SockStep.accepts 1, SockStep.accepts 5, SockStep.accepts 5]
    ∧ writeToSocketSent [SockStep.accepts 2, SockStep.accepts 1, SockStep.accepts 1,
        SockStep.accepts 5, SockStep.accepts 5] = helloBytes :=
  manual_loop_matches_composed _ (by decide) (by decide)

end AsioNet
